import Mathlib

/-!
# Configuration assembler of `pkg/envoy/boilerplate.go`

A shallow embedding of the five builders of the package `envoy`
(`makeVirtualHost`, `makeConnectionManager`, `makeListener`, `makeAddresses`,
`makeCluster`) together with the part of the proxy configuration schema they
populate.

Conventions of the embedding.

* A Go pointer field (`*T`) is an `Option T`: `none` is the nil pointer.
* A Go interface field holding a `oneof` wrapper is an `Option` of an inductive
  type whose constructors carry the names of the Go wrapper structs.
* A Go slice is a `Slice`: the nil slice, or a backing sequence.
* Only the fields of the schema that the builders assign are represented; every
  other field of the schema keeps its Go zero value in the source and is left out.
* `util.MessageToStruct` is not part of the package; it is a parameter of the two
  builders that call it.
* `log.Fatalf` ends the process: a builder that can reach it returns an `Except`,
  whose `error` carries the logged message.
-/

set_option linter.dupNamespace false

namespace envoy

/-- A Go slice value: the nil slice, or a (possibly empty) sequence of elements. -/
inductive Slice (α : Type) where
  | nil : Slice α
  | ofList (elems : List α) : Slice α
  deriving DecidableEq, Repr

namespace Slice

/-- The elements of a slice, in order; the nil slice has none. -/
def toList {α : Type} : Slice α → List α
  | nil => []
  | ofList elems => elems

/-- Go `len(s)`. -/
def len {α : Type} (s : Slice α) : Nat := s.toList.length

/-- Go `s == nil`. -/
def isNil {α : Type} : Slice α → Bool
  | nil => true
  | ofList _ => false

/-- Go `append(s, x)`: the result is never the nil slice. -/
def append {α : Type} (s : Slice α) (x : α) : Slice α :=
  ofList (s.toList ++ [x])

end Slice

namespace time

/-- Go `time.Duration`: a count of nanoseconds. -/
abbrev Duration := Int

/-- Go `time.Second`. -/
def Second : Duration := 1000000000

end time

namespace types

/-- Protobuf well-known type `Duration`. -/
structure Duration where
  Seconds : Int
  Nanos : Int := 0
  deriving DecidableEq, Repr

/-- Protobuf well-known type `UInt32Value`. -/
structure UInt32Value where
  Value : Nat
  deriving DecidableEq, Repr

end types

namespace core

/-- The `oneof port_specifier` of a socket address. -/
inductive isSocketAddress_PortSpecifier where
  | SocketAddress_PortValue (PortValue : Nat)
  | SocketAddress_NamedPort (NamedPort : String)
  deriving DecidableEq, Repr

/-- Schema message `core.SocketAddress`. -/
structure SocketAddress where
  Address : String
  PortSpecifier : Option isSocketAddress_PortSpecifier
  deriving DecidableEq, Repr

/-- Schema message `core.Pipe`. -/
structure Pipe where
  Path : String
  deriving DecidableEq, Repr

/-- The `oneof address` of an address. -/
inductive isAddress_Address where
  | Address_SocketAddress (SocketAddress : Option SocketAddress)
  | Address_Pipe (Pipe : Option Pipe)
  deriving DecidableEq, Repr

/-- Schema message `core.Address`. -/
structure Address where
  Address : Option isAddress_Address
  deriving DecidableEq, Repr

/-- The `oneof specifier` of a data source. -/
inductive isDataSource_Specifier where
  | DataSource_Filename (Filename : String)
  | DataSource_InlineString (InlineString : String)
  deriving DecidableEq, Repr

/-- Schema message `core.DataSource`. -/
structure DataSource where
  Specifier : Option isDataSource_Specifier
  deriving DecidableEq, Repr

/-- Schema message `core.HealthCheck.HttpHealthCheck`. -/
structure HealthCheck_HttpHealthCheck where
  Path : String
  deriving DecidableEq, Repr

/-- Schema message `core.HealthCheck.TcpHealthCheck`, with no field assigned. -/
structure HealthCheck_TcpHealthCheck where
  deriving DecidableEq, Repr

/-- The `oneof health_checker` of a health check. -/
inductive isHealthCheck_HealthChecker where
  | HealthCheck_HttpHealthCheck_ (HttpHealthCheck : Option HealthCheck_HttpHealthCheck)
  | HealthCheck_TcpHealthCheck_ (TcpHealthCheck : Option HealthCheck_TcpHealthCheck)
  deriving DecidableEq, Repr

/-- Schema message `core.HealthCheck`. -/
structure HealthCheck where
  Timeout : Option types.Duration
  Interval : Option types.Duration
  UnhealthyThreshold : Option types.UInt32Value
  HealthyThreshold : Option types.UInt32Value
  HealthChecker : Option isHealthCheck_HealthChecker
  deriving DecidableEq, Repr

end core

namespace auth

/-- Schema message `auth.TlsCertificate`. -/
structure TlsCertificate where
  CertificateChain : Option core.DataSource
  PrivateKey : Option core.DataSource
  deriving DecidableEq, Repr

/-- Schema message `auth.CertificateValidationContext`. -/
structure CertificateValidationContext where
  TrustedCa : Option core.DataSource
  deriving DecidableEq, Repr

/-- The `oneof validation_context_type` of a common TLS context. -/
inductive isCommonTlsContext_ValidationContextType where
  | CommonTlsContext_ValidationContext
      (ValidationContext : Option CertificateValidationContext)
  deriving DecidableEq, Repr

/-- Schema message `auth.CommonTlsContext`. -/
structure CommonTlsContext where
  TlsCertificates : Slice (Option TlsCertificate) := Slice.nil
  ValidationContextType : Option isCommonTlsContext_ValidationContextType := none
  deriving DecidableEq, Repr

/-- Schema message `auth.DownstreamTlsContext`. -/
structure DownstreamTlsContext where
  CommonTlsContext : Option CommonTlsContext := none
  deriving DecidableEq, Repr

/-- Schema message `auth.UpstreamTlsContext`. -/
structure UpstreamTlsContext where
  CommonTlsContext : Option CommonTlsContext := none
  deriving DecidableEq, Repr

end auth

namespace route

/-- The `oneof path_specifier` of a route match. -/
inductive isRouteMatch_PathSpecifier where
  | RouteMatch_Prefix (Prefix : String)
  | RouteMatch_Path (Path : String)
  | RouteMatch_Regex (Regex : String)
  deriving DecidableEq, Repr

/-- Schema message `route.RouteMatch`. -/
structure RouteMatch where
  PathSpecifier : Option isRouteMatch_PathSpecifier
  deriving DecidableEq, Repr

/-- Schema message `route.RouteAction.RetryPolicy`. -/
structure RouteAction_RetryPolicy where
  RetryOn : String
  PerTryTimeout : Option time.Duration
  deriving DecidableEq, Repr

/-- The `oneof cluster_specifier` of a route action. -/
inductive isRouteAction_ClusterSpecifier where
  | RouteAction_Cluster (Cluster : String)
  | RouteAction_ClusterHeader (ClusterHeader : String)
  deriving DecidableEq, Repr

/-- Schema message `route.RouteAction`. -/
structure RouteAction where
  ClusterSpecifier : Option isRouteAction_ClusterSpecifier
  RetryPolicy : Option RouteAction_RetryPolicy
  deriving DecidableEq, Repr

/-- The `oneof action` of a route; only the forwarding action is represented. -/
inductive isRoute_Action where
  | Route_Route (Route : Option RouteAction)
  deriving DecidableEq, Repr

/-- Schema message `route.Route`. -/
structure Route where
  Match : RouteMatch
  Action : Option isRoute_Action
  deriving DecidableEq, Repr

/-- Schema message `route.VirtualHost`. -/
structure VirtualHost where
  Name : String
  Domains : Slice String
  Routes : Slice Route
  deriving DecidableEq, Repr

end route

namespace v2

/-- Schema message `v2.RouteConfiguration`. -/
structure RouteConfiguration where
  Name : String
  VirtualHosts : Slice route.VirtualHost
  deriving DecidableEq, Repr

end v2

namespace fal

/-- Schema message `accesslog.v2.FileAccessLog`. -/
structure FileAccessLog where
  Path : String
  deriving DecidableEq, Repr

end fal

namespace al

/-- Schema message `filter.accesslog.v2.AccessLog`; `σ` is the type of the generic
structured values (`types.Struct`). -/
structure AccessLog (σ : Type) where
  Name : String
  Config : Option σ
  deriving DecidableEq, Repr

end al

namespace hcm

/-- Enum `HttpConnectionManager.CodecType`. -/
inductive HttpConnectionManager_CodecType where
  | AUTO
  | HTTP1
  | HTTP2
  deriving DecidableEq, Repr

/-- Enum `HttpConnectionManager.Tracing.OperationName`. -/
inductive HttpConnectionManager_Tracing_OperationName where
  | INGRESS
  | EGRESS
  deriving DecidableEq, Repr

/-- Schema message `HttpFilter`. -/
structure HttpFilter where
  Name : String
  deriving DecidableEq, Repr

/-- Schema message `HttpConnectionManager.Tracing`. -/
structure HttpConnectionManager_Tracing where
  OperationName : HttpConnectionManager_Tracing_OperationName
  deriving DecidableEq, Repr

/-- The `oneof route_specifier` of a connection manager; only the embedded route
configuration is represented. -/
inductive isHttpConnectionManager_RouteSpecifier where
  | HttpConnectionManager_RouteConfig (RouteConfig : Option v2.RouteConfiguration)
  deriving DecidableEq, Repr

/-- Schema message `HttpConnectionManager`. -/
structure HttpConnectionManager (σ : Type) where
  CodecType : HttpConnectionManager_CodecType
  StatPrefix : String
  HttpFilters : Slice (Option HttpFilter)
  RouteSpecifier : Option isHttpConnectionManager_RouteSpecifier
  Tracing : Option HttpConnectionManager_Tracing
  AccessLog : Slice (Option (al.AccessLog σ))
  deriving DecidableEq, Repr

end hcm

namespace listener

/-- Schema message `listener.Filter`. -/
structure Filter (σ : Type) where
  Name : String
  Config : Option σ
  deriving DecidableEq, Repr

/-- Schema message `listener.FilterChain`. -/
structure FilterChain (σ : Type) where
  TlsContext : Option auth.DownstreamTlsContext
  Filters : Slice (Filter σ)
  deriving DecidableEq, Repr

end listener

namespace v2

/-- Schema message `v2.Listener`. -/
structure Listener (σ : Type) where
  Name : String
  Address : core.Address
  FilterChains : Slice (listener.FilterChain σ)
  deriving DecidableEq, Repr

/-- Enum `Cluster.DiscoveryType`. -/
inductive Cluster_DiscoveryType where
  | Cluster_STATIC
  | Cluster_STRICT_DNS
  | Cluster_LOGICAL_DNS
  | Cluster_EDS
  | Cluster_ORIGINAL_DST
  deriving DecidableEq, Repr

/-- Schema message `v2.Cluster`; the field `Type` of the source is `Type_` here. -/
structure Cluster where
  Type_ : Cluster_DiscoveryType
  Name : String
  ConnectTimeout : time.Duration
  Hosts : Slice (Option core.Address)
  TlsContext : Option auth.UpstreamTlsContext
  HealthChecks : Slice (Option core.HealthCheck)
  deriving DecidableEq, Repr

end v2

namespace proto

/-- Go interface `proto.Message`, restricted to the messages of this package that
are passed as one: the value is a non-nil pointer to the message. -/
inductive Message (σ : Type) where
  | FileAccessLog (msg : fal.FileAccessLog)
  | HttpConnectionManager (msg : hcm.HttpConnectionManager σ)
  | Listener (msg : v2.Listener σ)
  | Cluster (msg : v2.Cluster)
  deriving DecidableEq, Repr

end proto

namespace cache

/-- Go interface `cache.Resource`, which is `proto.Message`. -/
abbrev Resource (σ : Type) := proto.Message σ

end cache

/-- The signature of `util.MessageToStruct`: a generic structured value, or the
text of the error. -/
abbrev Marshal (σ : Type) := proto.Message σ → Except String σ

/-- Source: `makeVirtualHost`. -/
def makeVirtualHost (host : String) (timeout : time.Duration) : route.VirtualHost :=
  let virtualHost : route.VirtualHost :=
    { Name := "local_service"
      Domains := Slice.ofList [host]
      Routes := Slice.ofList [
        { Match := { PathSpecifier := some (.RouteMatch_Prefix "/") }
          Action := some (.Route_Route (some
            { ClusterSpecifier := some (.RouteAction_Cluster host)
              RetryPolicy := some
                { RetryOn := "5xx"
                  PerTryTimeout := some timeout } })) }] }
  virtualHost

/-- Source: `makeConnectionManager`. An `error` is the process ended by
`log.Fatalf`, with the logged message. -/
def makeConnectionManager {σ : Type} (MessageToStruct : Marshal σ)
    (virtualHosts : Slice route.VirtualHost) :
    Except String (hcm.HttpConnectionManager σ) :=
  match MessageToStruct (.FileAccessLog { Path := "/var/log/envoy/test.log" }) with
  | .error err => .error ("failed to convert: " ++ err)
  | .ok accessLogConfig =>
    .ok
      { CodecType := .AUTO
        StatPrefix := "ingress_http"
        HttpFilters := Slice.ofList [some { Name := "envoy.router" }]
        RouteSpecifier := some (.HttpConnectionManager_RouteConfig (some
          { Name := "local_route"
            VirtualHosts := virtualHosts }))
        Tracing := some { OperationName := .EGRESS }
        AccessLog := Slice.ofList [some
          { Name := "envoy.file_access_log"
            Config := some accessLogConfig }] }

/-- Source: `makeListener`. An `error` is the process ended by `log.Fatalf`, in
`makeConnectionManager` or here, with the logged message. -/
def makeListener {σ : Type} (MessageToStruct : Marshal σ)
    (virtualHosts : Slice route.VirtualHost) (cert key : String) :
    Except String (Slice (cache.Resource σ)) :=
  match makeConnectionManager MessageToStruct virtualHosts with
  | .error fatal => .error fatal
  | .ok httpConnectionManager =>
    match MessageToStruct (.HttpConnectionManager httpConnectionManager) with
    | .error err => .error ("failed to convert: " ++ err)
    | .ok httpConfig =>
      let tls : Option auth.DownstreamTlsContext := some {}
      let tls : Option auth.DownstreamTlsContext :=
        if cert ≠ "" ∧ key ≠ "" then
          tls.map fun t =>
            { t with
              CommonTlsContext := some
                { TlsCertificates := Slice.ofList [some
                    { CertificateChain := some
                        { Specifier := some (.DataSource_Filename cert) }
                      PrivateKey := some
                        { Specifier := some (.DataSource_Filename key) } }] } }
        else
          none
      let listener : v2.Listener σ :=
        { Name := "listener_0"
          Address :=
            { Address := some (.Address_SocketAddress (some
                { Address := "0.0.0.0"
                  PortSpecifier := some (.SocketAddress_PortValue 10000) })) }
          FilterChains := Slice.ofList [
            { TlsContext := tls
              Filters := Slice.ofList [
                { Name := "envoy.http_connection_manager"
                  Config := some httpConfig }] }] }
      .ok (Slice.ofList [.Listener listener])

/-- Source: `makeAddresses`. The loop appends one address for each element of the
input, from the empty non-nil slice. -/
def makeAddresses (addresses : Slice String) : Slice (Option core.Address) :=
  let envoyAddresses : Slice (Option core.Address) := Slice.ofList []
  addresses.toList.foldl
    (fun envoyAddresses address =>
      let envoyAddress : Option core.Address := some
        { Address := some (.Address_SocketAddress (some
            { Address := address
              PortSpecifier := some (.SocketAddress_PortValue 443) })) }
      envoyAddresses.append envoyAddress)
    envoyAddresses

/-- Source: `makeCluster`. -/
def makeCluster (host ca healthPath : String)
    (addresses : Slice (Option core.Address)) : v2.Cluster :=
  let tls : Option auth.UpstreamTlsContext := some {}
  let tls : Option auth.UpstreamTlsContext :=
    if ca ≠ "" then
      tls.map fun t =>
        { t with
          CommonTlsContext := some
            { ValidationContextType := some (.CommonTlsContext_ValidationContext (some
                { TrustedCa := some
                    { Specifier := some (.DataSource_Filename ca) } })) } }
    else
      none
  let cluster : v2.Cluster :=
    { Type_ := .Cluster_STRICT_DNS
      Name := host
      ConnectTimeout := time.Second * 30
      Hosts := addresses
      TlsContext := tls
      HealthChecks := Slice.ofList [some
        { Timeout := some { Seconds := 5 }
          Interval := some { Seconds := 10 }
          UnhealthyThreshold := some { Value := 3 }
          HealthyThreshold := some { Value := 3 }
          HealthChecker := some (.HealthCheck_HttpHealthCheck_ (some
            { Path := healthPath })) }] }
  cluster

/-- A sample serializer over strings: a file access log is rendered as its path, a
connection manager as its stat prefix, and no other message is accepted. -/
def sampleMarshal : Marshal String
  | .FileAccessLog msg => .ok msg.Path
  | .HttpConnectionManager msg => .ok msg.StatPrefix
  | _ => .error "unsupported message"

/-- The connection manager that `makeConnectionManager` builds under `sampleMarshal`,
written out for use at concrete inputs. -/
def sampleManager (virtualHosts : Slice route.VirtualHost) :
    hcm.HttpConnectionManager String :=
  { CodecType := .AUTO
    StatPrefix := "ingress_http"
    HttpFilters := Slice.ofList [some { Name := "envoy.router" }]
    RouteSpecifier := some (.HttpConnectionManager_RouteConfig (some
      { Name := "local_route"
        VirtualHosts := virtualHosts }))
    Tracing := some { OperationName := .EGRESS }
    AccessLog := Slice.ofList [some
      { Name := "envoy.file_access_log"
        Config := some "/var/log/envoy/test.log" }] }

/-- A second sample serializer over strings: it agrees with `sampleMarshal` on file
access logs and connection managers, and renders a listener or a cluster as its name. -/
def sampleMarshalAll : Marshal String
  | .FileAccessLog msg => .ok msg.Path
  | .HttpConnectionManager msg => .ok msg.StatPrefix
  | .Listener msg => .ok msg.Name
  | .Cluster msg => .ok msg.Name

/-! ## Auxiliary facts -/

theorem Slice.foldl_append_ofList {α β : Type} (f : α → β) (l : List α) (acc : List β) :
    l.foldl (fun s a => Slice.append s (f a)) (Slice.ofList acc)
      = Slice.ofList (acc ++ l.map f) := by
  induction l generalizing acc with
  | nil => simp
  | cons a l ih =>
    have hstep : Slice.append (Slice.ofList acc) (f a) = Slice.ofList (acc ++ [f a]) := rfl
    rw [List.foldl_cons, hstep, ih]
    simp

/-- The loop of `makeAddresses` computes the image of the input, element by element. -/
theorem makeAddresses_eq_map (addresses : Slice String) :
    makeAddresses addresses = Slice.ofList (addresses.toList.map fun address =>
      some
        { Address := some (.Address_SocketAddress (some
            { Address := address
              PortSpecifier := some (.SocketAddress_PortValue 443) })) }) := by
  unfold makeAddresses
  simp only []
  rw [Slice.foldl_append_ofList]
  simp

/-- Unfolding of `makeListener` once both serializations have succeeded. -/
theorem makeListener_of_ok {σ : Type} (MessageToStruct : Marshal σ)
    (virtualHosts : Slice route.VirtualHost) (cert key : String)
    (httpConnectionManager : hcm.HttpConnectionManager σ) (httpConfig : σ)
    (hmgr : makeConnectionManager MessageToStruct virtualHosts = .ok httpConnectionManager)
    (hcfg : MessageToStruct (.HttpConnectionManager httpConnectionManager)
      = .ok httpConfig) :
    makeListener MessageToStruct virtualHosts cert key = .ok (Slice.ofList [.Listener
      { Name := "listener_0"
        Address :=
          { Address := some (.Address_SocketAddress (some
              { Address := "0.0.0.0"
                PortSpecifier := some (.SocketAddress_PortValue 10000) })) }
        FilterChains := Slice.ofList [
          { TlsContext :=
              if cert ≠ "" ∧ key ≠ "" then
                some
                  { CommonTlsContext := some
                      { TlsCertificates := Slice.ofList [some
                          { CertificateChain := some
                              { Specifier := some (.DataSource_Filename cert) }
                            PrivateKey := some
                              { Specifier := some (.DataSource_Filename key) } }] } }
              else none
            Filters := Slice.ofList [
              { Name := "envoy.http_connection_manager"
                Config := some httpConfig }] }] }]) := by
  unfold makeListener
  rw [hmgr]
  simp only [hcfg]
  by_cases h : cert ≠ "" ∧ key ≠ "" <;> simp [h]

/-! ## Listener: the downstream TLS context -/

/-- C1: when both serializations succeed, `makeListener` returns one listener with a
single filter chain, and that chain has a TLS context (non-nil) if and only if `cert`
is non-empty and `key` is non-empty; when either is empty the TLS context is nil. -/
theorem makeListener_tls_iff {σ : Type} (MessageToStruct : Marshal σ)
    (virtualHosts : Slice route.VirtualHost) (cert key : String)
    (httpConnectionManager : hcm.HttpConnectionManager σ) (httpConfig : σ)
    (hmgr : makeConnectionManager MessageToStruct virtualHosts = .ok httpConnectionManager)
    (hcfg : MessageToStruct (.HttpConnectionManager httpConnectionManager)
      = .ok httpConfig) :
    ∃ l fc,
      makeListener MessageToStruct virtualHosts cert key
        = .ok (Slice.ofList [.Listener l]) ∧
      l.FilterChains = Slice.ofList [fc] ∧
      (fc.TlsContext ≠ none ↔ cert ≠ "" ∧ key ≠ "") ∧
      (cert = "" ∨ key = "" → fc.TlsContext = none) := by
  refine ⟨_, _, makeListener_of_ok MessageToStruct virtualHosts cert key
    httpConnectionManager httpConfig hmgr hcfg, rfl, ?_, ?_⟩
  · by_cases h : cert ≠ "" ∧ key ≠ "" <;> simp [h]
  · intro h
    have hn : ¬ (cert ≠ "" ∧ key ≠ "") := by
      rintro ⟨hc, hk⟩
      rcases h with h | h
      · exact hc h
      · exact hk h
    simp [hn]

/-- C1, at a certificate without a key: the filter chain has no TLS context. -/
theorem makeListener_tls_iff_witness :
    makeConnectionManager sampleMarshal (Slice.ofList [])
      = .ok (sampleManager (Slice.ofList [])) ∧
    sampleMarshal (.HttpConnectionManager (sampleManager (Slice.ofList [])))
      = .ok "ingress_http" ∧
    ∃ l fc,
      makeListener sampleMarshal (Slice.ofList []) "cert.pem" ""
        = .ok (Slice.ofList [.Listener l]) ∧
      l.FilterChains = Slice.ofList [fc] ∧
      (fc.TlsContext ≠ none ↔ "cert.pem" ≠ "" ∧ "" ≠ "") ∧
      ("cert.pem" = "" ∨ "" = "" → fc.TlsContext = none) :=
  ⟨rfl, rfl, makeListener_tls_iff sampleMarshal (Slice.ofList []) "cert.pem" ""
    (sampleManager (Slice.ofList [])) "ingress_http" rfl rfl⟩

/-! ## Cluster: the upstream TLS context -/

/-- C2: the cluster of `makeCluster` has a TLS context (non-nil) if and only if `ca`
is non-empty, and a TLS context that is present holds exactly one thing, a validation
context whose trusted CA is the file name `ca`. -/
theorem makeCluster_tls_iff (host ca healthPath : String)
    (addresses : Slice (Option core.Address)) :
    ((makeCluster host ca healthPath addresses).TlsContext ≠ none ↔ ca ≠ "") ∧
    ∀ tls, (makeCluster host ca healthPath addresses).TlsContext = some tls →
      tls.CommonTlsContext = some
        { TlsCertificates := Slice.nil
          ValidationContextType := some (.CommonTlsContext_ValidationContext (some
            { TrustedCa := some { Specifier := some (.DataSource_Filename ca) } })) } := by
  by_cases h : ca = ""
  · simp [makeCluster, h]
  · refine ⟨by simp [makeCluster, h], ?_⟩
    intro tls htls
    simp only [makeCluster, ne_eq, h, not_false_eq_true, if_true, Option.map_some',
      Option.some.injEq] at htls
    rw [← htls]

/-! ## Addresses -/

/-- C3: `makeAddresses hosts` has the length of `hosts`; its element at each index
`i` is a (non-nil) socket address with host `hosts[i]` and port 443; and the result is
never the nil slice, so the empty input yields an empty non-nil sequence. -/
theorem makeAddresses_len_get (hosts : Slice String) :
    (makeAddresses hosts).len = hosts.len ∧
    (∀ (i : Nat) (h : i < hosts.toList.length),
      (makeAddresses hosts).toList[i]? = some (some
        { Address := some (.Address_SocketAddress (some
            { Address := hosts.toList[i]
              PortSpecifier := some (.SocketAddress_PortValue 443) })) })) ∧
    (makeAddresses hosts).isNil = false ∧
    (makeAddresses Slice.nil = Slice.ofList [] ∧
      makeAddresses (Slice.ofList []) = Slice.ofList []) := by
  rw [makeAddresses_eq_map]
  refine ⟨by simp [Slice.len, Slice.toList], ?_, rfl, rfl, rfl⟩
  intro i h
  simp [Slice.toList, List.getElem?_eq_getElem h]

/-! ## Virtual host -/

/-- C4: the virtual host of `makeVirtualHost host timeout` has the domain list
`[host]`, and its single route forwards to the cluster named `host`. -/
theorem makeVirtualHost_domain_cluster (host : String) (timeout : time.Duration) :
    (makeVirtualHost host timeout).Domains = Slice.ofList [host] ∧
    ∃ r ra,
      (makeVirtualHost host timeout).Routes = Slice.ofList [r] ∧
      r.Action = some (.Route_Route (some ra)) ∧
      ra.ClusterSpecifier = some (.RouteAction_Cluster host) :=
  ⟨rfl, _, _, rfl, rfl, rfl⟩

/-- C5: for every host and every timeout, of any sign, `makeVirtualHost` is a total
function whose virtual host has exactly one route: its match is the path prefix "/",
its retry policy retries on "5xx", and its per-try timeout is the given timeout. -/
theorem makeVirtualHost_route (host : String) (timeout : time.Duration) :
    ∃ r ra rp,
      (makeVirtualHost host timeout).Routes = Slice.ofList [r] ∧
      (makeVirtualHost host timeout).Routes.len = 1 ∧
      r.Match = { PathSpecifier := some (.RouteMatch_Prefix "/") } ∧
      r.Action = some (.Route_Route (some ra)) ∧
      ra.RetryPolicy = some rp ∧
      rp.RetryOn = "5xx" ∧
      rp.PerTryTimeout = some timeout :=
  ⟨_, _, _, rfl, rfl, rfl, rfl, rfl, rfl, rfl⟩

/-! ## Cluster: health check and fixed fields -/

/-- C6: the cluster of `makeCluster` has exactly one health check, with timeout 5 s,
interval 10 s, unhealthy threshold 3, healthy threshold 3, and an HTTP health checker
on the path `healthPath`; the four fixed values are the same for all inputs. -/
theorem makeCluster_healthCheck (host ca healthPath : String)
    (addresses : Slice (Option core.Address)) :
    (makeCluster host ca healthPath addresses).HealthChecks = Slice.ofList [some
      { Timeout := some { Seconds := 5, Nanos := 0 }
        Interval := some { Seconds := 10, Nanos := 0 }
        UnhealthyThreshold := some { Value := 3 }
        HealthyThreshold := some { Value := 3 }
        HealthChecker := some (.HealthCheck_HttpHealthCheck_ (some
          { Path := healthPath })) }] ∧
    (makeCluster host ca healthPath addresses).HealthChecks.len = 1 :=
  ⟨rfl, rfl⟩

/-- C7: the cluster of `makeCluster` has discovery type STRICT_DNS, the name `host`,
a connect timeout of 30 seconds (in nanoseconds), and the host list `addresses`
unchanged, so with the same elements, order and length. -/
theorem makeCluster_fixed_fields (host ca healthPath : String)
    (addresses : Slice (Option core.Address)) :
    (makeCluster host ca healthPath addresses).Type_ = .Cluster_STRICT_DNS ∧
    (makeCluster host ca healthPath addresses).Name = host ∧
    (makeCluster host ca healthPath addresses).ConnectTimeout = 30000000000 ∧
    (makeCluster host ca healthPath addresses).Hosts = addresses ∧
    (makeCluster host ca healthPath addresses).Hosts.toList = addresses.toList ∧
    (makeCluster host ca healthPath addresses).Hosts.len = addresses.len :=
  ⟨rfl, rfl, by simp [makeCluster, time.Second], rfl, rfl, rfl⟩

/-! ## Listener: certificate, shape -/

/-- C8: for non-empty `cert` and `key`, when both serializations succeed, the
downstream TLS context of the listener of `makeListener` holds exactly one TLS
certificate, whose certificate chain is the file name `cert` and whose private key is
the file name `key`. -/
theorem makeListener_certificate {σ : Type} (MessageToStruct : Marshal σ)
    (virtualHosts : Slice route.VirtualHost) (cert key : String)
    (httpConnectionManager : hcm.HttpConnectionManager σ) (httpConfig : σ)
    (hmgr : makeConnectionManager MessageToStruct virtualHosts = .ok httpConnectionManager)
    (hcfg : MessageToStruct (.HttpConnectionManager httpConnectionManager)
      = .ok httpConfig)
    (hcert : cert ≠ "") (hkey : key ≠ "") :
    ∃ l fc tls ctx,
      makeListener MessageToStruct virtualHosts cert key
        = .ok (Slice.ofList [.Listener l]) ∧
      l.FilterChains = Slice.ofList [fc] ∧
      fc.TlsContext = some tls ∧
      tls.CommonTlsContext = some ctx ∧
      ctx.TlsCertificates = Slice.ofList [some
        { CertificateChain := some { Specifier := some (.DataSource_Filename cert) }
          PrivateKey := some { Specifier := some (.DataSource_Filename key) } }] := by
  have hret := makeListener_of_ok MessageToStruct virtualHosts cert key
    httpConnectionManager httpConfig hmgr hcfg
  simp only [ne_eq, hcert, hkey, not_false_eq_true, and_self, if_true] at hret
  exact ⟨_, _, _, _, hret, rfl, rfl, rfl, rfl⟩

/-- C8, at `cert.pem` and `key.pem` with one virtual host. -/
theorem makeListener_certificate_witness :
    makeConnectionManager sampleMarshal
        (Slice.ofList [makeVirtualHost "api.example.com" 2000000000])
      = .ok (sampleManager (Slice.ofList [makeVirtualHost "api.example.com" 2000000000])) ∧
    sampleMarshal (.HttpConnectionManager
        (sampleManager (Slice.ofList [makeVirtualHost "api.example.com" 2000000000])))
      = .ok "ingress_http" ∧
    "cert.pem" ≠ "" ∧ "key.pem" ≠ "" ∧
    ∃ l fc tls ctx,
      makeListener sampleMarshal
          (Slice.ofList [makeVirtualHost "api.example.com" 2000000000])
          "cert.pem" "key.pem"
        = .ok (Slice.ofList [.Listener l]) ∧
      l.FilterChains = Slice.ofList [fc] ∧
      fc.TlsContext = some tls ∧
      tls.CommonTlsContext = some ctx ∧
      ctx.TlsCertificates = Slice.ofList [some
        { CertificateChain := some
            { Specifier := some (.DataSource_Filename "cert.pem") }
          PrivateKey := some { Specifier := some (.DataSource_Filename "key.pem") } }] :=
  ⟨rfl, rfl, by decide, by decide,
    makeListener_certificate sampleMarshal
      (Slice.ofList [makeVirtualHost "api.example.com" 2000000000]) "cert.pem" "key.pem"
      (sampleManager (Slice.ofList [makeVirtualHost "api.example.com" 2000000000]))
      "ingress_http" rfl rfl (by decide) (by decide)⟩

/-- C9: when both serializations succeed, `makeListener` returns a list of exactly
one resource, a listener named "listener_0" bound to the socket address 0.0.0.0 port
10000, with exactly one filter chain, which holds exactly one filter, named
"envoy.http_connection_manager", whose config is the serialization of
`makeConnectionManager virtualHosts`. -/
theorem makeListener_shape {σ : Type} (MessageToStruct : Marshal σ)
    (virtualHosts : Slice route.VirtualHost) (cert key : String)
    (httpConnectionManager : hcm.HttpConnectionManager σ) (httpConfig : σ)
    (hmgr : makeConnectionManager MessageToStruct virtualHosts = .ok httpConnectionManager)
    (hcfg : MessageToStruct (.HttpConnectionManager httpConnectionManager)
      = .ok httpConfig) :
    ∃ l fc f,
      makeListener MessageToStruct virtualHosts cert key
        = .ok (Slice.ofList [.Listener l]) ∧
      l.Name = "listener_0" ∧
      l.Address =
        { Address := some (.Address_SocketAddress (some
            { Address := "0.0.0.0"
              PortSpecifier := some (.SocketAddress_PortValue 10000) })) } ∧
      l.FilterChains = Slice.ofList [fc] ∧
      fc.Filters = Slice.ofList [f] ∧
      f.Name = "envoy.http_connection_manager" ∧
      f.Config = some httpConfig :=
  ⟨_, _, _, makeListener_of_ok MessageToStruct virtualHosts cert key
    httpConnectionManager httpConfig hmgr hcfg, rfl, rfl, rfl, rfl, rfl, rfl⟩

/-- C9, at the nil list of virtual hosts with neither certificate nor key. -/
theorem makeListener_shape_witness :
    makeConnectionManager sampleMarshal Slice.nil = .ok (sampleManager Slice.nil) ∧
    sampleMarshal (.HttpConnectionManager (sampleManager Slice.nil))
      = .ok "ingress_http" ∧
    ∃ l fc f,
      makeListener sampleMarshal Slice.nil "" ""
        = .ok (Slice.ofList [.Listener l]) ∧
      l.Name = "listener_0" ∧
      l.Address =
        { Address := some (.Address_SocketAddress (some
            { Address := "0.0.0.0"
              PortSpecifier := some (.SocketAddress_PortValue 10000) })) } ∧
      l.FilterChains = Slice.ofList [fc] ∧
      fc.Filters = Slice.ofList [f] ∧
      f.Name = "envoy.http_connection_manager" ∧
      f.Config = some "ingress_http" :=
  ⟨rfl, rfl, makeListener_shape sampleMarshal Slice.nil "" "" (sampleManager Slice.nil)
    "ingress_http" rfl rfl⟩

/-! ## Connection manager -/

/-- C10: when the serialization of the file access log with path
"/var/log/envoy/test.log" succeeds, `makeConnectionManager` returns a connection
manager whose HTTP filter list holds exactly one filter, named "envoy.router"; whose
codec type is AUTO; whose tracing operation name is EGRESS; whose route configuration
is named "local_route" and carries the given virtual hosts unchanged; and which has
exactly one access log, named "envoy.file_access_log", configured with that
serialization. -/
theorem makeConnectionManager_shape {σ : Type} (MessageToStruct : Marshal σ)
    (virtualHosts : Slice route.VirtualHost) (accessLogConfig : σ)
    (hlog : MessageToStruct (.FileAccessLog { Path := "/var/log/envoy/test.log" })
      = .ok accessLogConfig) :
    ∃ mgr,
      makeConnectionManager MessageToStruct virtualHosts = .ok mgr ∧
      mgr.HttpFilters = Slice.ofList [some { Name := "envoy.router" }] ∧
      mgr.CodecType = .AUTO ∧
      mgr.Tracing = some { OperationName := .EGRESS } ∧
      mgr.RouteSpecifier = some (.HttpConnectionManager_RouteConfig (some
        { Name := "local_route"
          VirtualHosts := virtualHosts })) ∧
      mgr.AccessLog = Slice.ofList [some
        { Name := "envoy.file_access_log"
          Config := some accessLogConfig }] := by
  unfold makeConnectionManager
  rw [hlog]
  exact ⟨_, rfl, rfl, rfl, rfl, rfl, rfl⟩

/-- C10, at the empty list of virtual hosts. -/
theorem makeConnectionManager_shape_witness :
    sampleMarshal (.FileAccessLog { Path := "/var/log/envoy/test.log" })
      = .ok "/var/log/envoy/test.log" ∧
    ∃ mgr,
      makeConnectionManager sampleMarshal (Slice.ofList []) = .ok mgr ∧
      mgr.HttpFilters = Slice.ofList [some { Name := "envoy.router" }] ∧
      mgr.CodecType = .AUTO ∧
      mgr.Tracing = some { OperationName := .EGRESS } ∧
      mgr.RouteSpecifier = some (.HttpConnectionManager_RouteConfig (some
        { Name := "local_route"
          VirtualHosts := Slice.ofList [] })) ∧
      mgr.AccessLog = Slice.ofList [some
        { Name := "envoy.file_access_log"
          Config := some "/var/log/envoy/test.log" }] :=
  ⟨rfl, makeConnectionManager_shape sampleMarshal (Slice.ofList [])
    "/var/log/envoy/test.log" rfl⟩

/-! ## Fatal exits: auxiliary facts -/

/-- Unfolding of `makeConnectionManager` when the access log serialization fails. -/
theorem makeConnectionManager_of_error {σ : Type} (MessageToStruct : Marshal σ)
    (virtualHosts : Slice route.VirtualHost) (err : String)
    (hlog : MessageToStruct (.FileAccessLog { Path := "/var/log/envoy/test.log" })
      = .error err) :
    makeConnectionManager MessageToStruct virtualHosts
      = .error ("failed to convert: " ++ err) := by
  unfold makeConnectionManager
  rw [hlog]

/-- Unfolding of `makeConnectionManager` when the access log serialization succeeds. -/
theorem makeConnectionManager_of_ok {σ : Type} (MessageToStruct : Marshal σ)
    (virtualHosts : Slice route.VirtualHost) (accessLogConfig : σ)
    (hlog : MessageToStruct (.FileAccessLog { Path := "/var/log/envoy/test.log" })
      = .ok accessLogConfig) :
    makeConnectionManager MessageToStruct virtualHosts = .ok
      { CodecType := .AUTO
        StatPrefix := "ingress_http"
        HttpFilters := Slice.ofList [some { Name := "envoy.router" }]
        RouteSpecifier := some (.HttpConnectionManager_RouteConfig (some
          { Name := "local_route"
            VirtualHosts := virtualHosts }))
        Tracing := some { OperationName := .EGRESS }
        AccessLog := Slice.ofList [some
          { Name := "envoy.file_access_log"
            Config := some accessLogConfig }] } := by
  unfold makeConnectionManager
  rw [hlog]

/-- A fatal exit inside `makeConnectionManager` is a fatal exit of `makeListener`. -/
theorem makeListener_of_mgr_error {σ : Type} (MessageToStruct : Marshal σ)
    (virtualHosts : Slice route.VirtualHost) (cert key : String) (fatal : String)
    (hmgr : makeConnectionManager MessageToStruct virtualHosts = .error fatal) :
    makeListener MessageToStruct virtualHosts cert key = .error fatal := by
  unfold makeListener
  rw [hmgr]

/-- Unfolding of `makeListener` when the connection manager cannot be serialized. -/
theorem makeListener_of_cfg_error {σ : Type} (MessageToStruct : Marshal σ)
    (virtualHosts : Slice route.VirtualHost) (cert key : String)
    (httpConnectionManager : hcm.HttpConnectionManager σ) (err : String)
    (hmgr : makeConnectionManager MessageToStruct virtualHosts = .ok httpConnectionManager)
    (hcfg : MessageToStruct (.HttpConnectionManager httpConnectionManager)
      = .error err) :
    makeListener MessageToStruct virtualHosts cert key
      = .error ("failed to convert: " ++ err) := by
  unfold makeListener
  rw [hmgr]
  simp only [hcfg]

/-! ## Addresses: the host of an element -/

/-- C11, refuted as stated: on the one-element input `[""]`, `makeAddresses` yields
the one socket address with the empty host, so not every element of its result has a
non-empty host. -/
theorem makeAddresses_empty_host :
    makeAddresses (Slice.ofList [""]) = Slice.ofList [some
      { Address := some (.Address_SocketAddress (some
          { Address := ""
            PortSpecifier := some (.SocketAddress_PortValue 443) })) }] ∧
    ¬ ∀ e ∈ (makeAddresses (Slice.ofList [""])).toList,
      ∃ sa : core.SocketAddress,
        e = some { Address := some (.Address_SocketAddress (some sa)) } ∧
        sa.Address ≠ "" := by
  refine ⟨rfl, ?_⟩
  intro hall
  obtain ⟨sa, hsa, hne⟩ := hall
    (some
      { Address := some (.Address_SocketAddress (some
          { Address := ""
            PortSpecifier := some (.SocketAddress_PortValue 443) })) })
    (by rw [makeAddresses_eq_map]; simp [Slice.toList])
  simp only [Option.some.injEq, core.Address.mk.injEq,
    core.isAddress_Address.Address_SocketAddress.injEq] at hsa
  exact hne (by rw [← hsa])

/-- C11, amended: when every string of `hosts` is non-empty, every element of
`makeAddresses hosts` is a socket address whose host is non-empty. -/
theorem makeAddresses_host_nonempty (hosts : Slice String)
    (hne : ∀ s ∈ hosts.toList, s ≠ "") :
    ∀ e ∈ (makeAddresses hosts).toList,
      ∃ sa : core.SocketAddress,
        e = some { Address := some (.Address_SocketAddress (some sa)) } ∧
        sa.Address ≠ "" := by
  intro e he
  rw [makeAddresses_eq_map] at he
  simp only [Slice.toList, List.mem_map] at he
  obtain ⟨s, hs, rfl⟩ := he
  exact ⟨_, rfl, hne s hs⟩

/-- C11 amended, at two upstream hosts. -/
theorem makeAddresses_host_nonempty_witness :
    (∀ s ∈ (Slice.ofList ["10.0.0.1", "10.0.0.2"]).toList, s ≠ "") ∧
    ∀ e ∈ (makeAddresses (Slice.ofList ["10.0.0.1", "10.0.0.2"])).toList,
      ∃ sa : core.SocketAddress,
        e = some { Address := some (.Address_SocketAddress (some sa)) } ∧
        sa.Address ≠ "" :=
  ⟨by decide, makeAddresses_host_nonempty (Slice.ofList ["10.0.0.1", "10.0.0.2"])
    (by decide)⟩

/-! ## Fatal exits -/

/-- C12: `makeConnectionManager` ends fatally exactly when the serialization of the
file access log fails, and returns a connection manager exactly when it succeeds;
`makeListener` ends fatally exactly when the serialization of the access log or that
of the connection manager fails, and returns a resource list exactly when both
succeed; a fatal exit and a returned value exclude each other; and `makeVirtualHost`,
`makeAddresses` and `makeCluster` yield a value on every input. -/
theorem fatal_iff_serialization_fails {σ : Type} (MessageToStruct : Marshal σ)
    (virtualHosts : Slice route.VirtualHost) (cert key : String) :
    (∀ fatal, makeConnectionManager MessageToStruct virtualHosts = .error fatal ↔
      ∃ err, MessageToStruct (.FileAccessLog { Path := "/var/log/envoy/test.log" })
          = .error err ∧
        fatal = "failed to convert: " ++ err) ∧
    ((∃ mgr, makeConnectionManager MessageToStruct virtualHosts = .ok mgr) ↔
      ∃ accessLogConfig,
        MessageToStruct (.FileAccessLog { Path := "/var/log/envoy/test.log" })
          = .ok accessLogConfig) ∧
    (∀ fatal, makeListener MessageToStruct virtualHosts cert key = .error fatal ↔
      (∃ err, MessageToStruct (.FileAccessLog { Path := "/var/log/envoy/test.log" })
          = .error err ∧
        fatal = "failed to convert: " ++ err) ∨
      (∃ mgr err, makeConnectionManager MessageToStruct virtualHosts = .ok mgr ∧
        MessageToStruct (.HttpConnectionManager mgr) = .error err ∧
        fatal = "failed to convert: " ++ err)) ∧
    ((∃ rs, makeListener MessageToStruct virtualHosts cert key = .ok rs) ↔
      ∃ mgr httpConfig, makeConnectionManager MessageToStruct virtualHosts = .ok mgr ∧
        MessageToStruct (.HttpConnectionManager mgr) = .ok httpConfig) ∧
    (∀ fatal mgr, ¬ (makeConnectionManager MessageToStruct virtualHosts = .error fatal ∧
      makeConnectionManager MessageToStruct virtualHosts = .ok mgr)) ∧
    (∀ fatal rs, ¬ (makeListener MessageToStruct virtualHosts cert key = .error fatal ∧
      makeListener MessageToStruct virtualHosts cert key = .ok rs)) ∧
    (∀ host timeout, ∃ virtualHost, makeVirtualHost host timeout = virtualHost) ∧
    (∀ addresses, ∃ envoyAddresses, makeAddresses addresses = envoyAddresses) ∧
    (∀ host ca healthPath addresses, ∃ cluster,
      makeCluster host ca healthPath addresses = cluster) := by
  have hmgrCases :
      (∃ err, MessageToStruct (.FileAccessLog { Path := "/var/log/envoy/test.log" })
          = .error err ∧
        makeConnectionManager MessageToStruct virtualHosts
          = .error ("failed to convert: " ++ err)) ∨
      (∃ a mgr, MessageToStruct (.FileAccessLog { Path := "/var/log/envoy/test.log" })
          = .ok a ∧
        makeConnectionManager MessageToStruct virtualHosts = .ok mgr) := by
    cases hlog : MessageToStruct (.FileAccessLog { Path := "/var/log/envoy/test.log" }) with
    | error err =>
      exact Or.inl ⟨err, rfl,
        makeConnectionManager_of_error MessageToStruct virtualHosts err hlog⟩
    | ok a =>
      exact Or.inr ⟨a, _, rfl,
        makeConnectionManager_of_ok MessageToStruct virtualHosts a hlog⟩
  refine ⟨?_, ?_, ?_, ?_, ?_, ?_, fun _ _ => ⟨_, rfl⟩, fun _ => ⟨_, rfl⟩,
    fun _ _ _ _ => ⟨_, rfl⟩⟩
  · intro fatal
    rcases hmgrCases with ⟨err, hlog, hret⟩ | ⟨a, mgr, hlog, hret⟩
    · rw [hret, hlog]
      constructor
      · intro h
        exact ⟨err, rfl, (Except.error.inj h).symm⟩
      · rintro ⟨err', h', rfl⟩
        rw [Except.error.inj h']
    · rw [hret, hlog]
      constructor
      · intro h
        cases h
      · rintro ⟨err', h', -⟩
        cases h'
  · rcases hmgrCases with ⟨err, hlog, hret⟩ | ⟨a, mgr, hlog, hret⟩
    · rw [hret, hlog]
      constructor
      · rintro ⟨mgr, h⟩
        cases h
      · rintro ⟨a, h⟩
        cases h
    · rw [hret, hlog]
      exact ⟨fun _ => ⟨a, rfl⟩, fun _ => ⟨mgr, rfl⟩⟩
  · intro fatal
    rcases hmgrCases with ⟨err, hlog, hret⟩ | ⟨a, mgr, hlog, hret⟩
    · rw [makeListener_of_mgr_error MessageToStruct virtualHosts cert key _ hret, hret,
        hlog]
      constructor
      · intro h
        exact Or.inl ⟨err, rfl, (Except.error.inj h).symm⟩
      · rintro (⟨err', h', rfl⟩ | ⟨mgr, err', h', -, -⟩)
        · rw [Except.error.inj h']
        · cases h'
    · cases hcfg : MessageToStruct (.HttpConnectionManager mgr) with
      | error err =>
        rw [makeListener_of_cfg_error MessageToStruct virtualHosts cert key mgr err
          hret hcfg, hret, hlog]
        constructor
        · intro h
          exact Or.inr ⟨mgr, err, rfl, hcfg, (Except.error.inj h).symm⟩
        · rintro (⟨err', h', -⟩ | ⟨mgr', err', h', hcfg', rfl⟩)
          · cases h'
          · cases h'
            rw [hcfg] at hcfg'
            rw [Except.error.inj hcfg']
      | ok httpConfig =>
        rw [makeListener_of_ok MessageToStruct virtualHosts cert key mgr httpConfig
          hret hcfg, hret, hlog]
        constructor
        · intro h
          cases h
        · rintro (⟨err', h', -⟩ | ⟨mgr', err', h', hcfg', -⟩)
          · cases h'
          · cases h'
            rw [hcfg] at hcfg'
            cases hcfg'
  · rcases hmgrCases with ⟨err, hlog, hret⟩ | ⟨a, mgr, hlog, hret⟩
    · rw [makeListener_of_mgr_error MessageToStruct virtualHosts cert key _ hret, hret]
      constructor
      · rintro ⟨rs, h⟩
        cases h
      · rintro ⟨mgr, cfg, h, -⟩
        cases h
    · cases hcfg : MessageToStruct (.HttpConnectionManager mgr) with
      | error err =>
        rw [makeListener_of_cfg_error MessageToStruct virtualHosts cert key mgr err
          hret hcfg, hret]
        constructor
        · rintro ⟨rs, h⟩
          cases h
        · rintro ⟨mgr', cfg, h, hcfg'⟩
          cases h
          rw [hcfg] at hcfg'
          cases hcfg'
      | ok httpConfig =>
        rw [makeListener_of_ok MessageToStruct virtualHosts cert key mgr httpConfig
          hret hcfg]
        exact ⟨fun _ => ⟨mgr, httpConfig, hret, hcfg⟩, fun _ => ⟨_, rfl⟩⟩
  · rintro fatal mgr ⟨h1, h2⟩
    rw [h1] at h2
    cases h2
  · rintro fatal rs ⟨h1, h2⟩
    rw [h1] at h2
    cases h2

/-! ## Determinism -/

/-- C13: each builder is a function of its arguments and of the outcomes of the
serializations it performs. With equal arguments, and two serializers that give the
same outcome on the file access log and on the connection manager built from it,
`makeConnectionManager` and `makeListener` give equal results (equal values, or the
same fatal exit); `makeVirtualHost`, `makeAddresses` and `makeCluster` give equal
values on equal arguments. -/
theorem builders_deterministic {σ : Type} (m₁ m₂ : Marshal σ)
    (virtualHosts virtualHosts' : Slice route.VirtualHost) (cert cert' key key' : String)
    (hvh : virtualHosts = virtualHosts') (hcert : cert = cert') (hkey : key = key')
    (hlog : m₁ (.FileAccessLog { Path := "/var/log/envoy/test.log" })
      = m₂ (.FileAccessLog { Path := "/var/log/envoy/test.log" }))
    (hcfg : ∀ mgr, makeConnectionManager m₁ virtualHosts = .ok mgr →
      m₁ (.HttpConnectionManager mgr) = m₂ (.HttpConnectionManager mgr)) :
    makeConnectionManager m₁ virtualHosts = makeConnectionManager m₂ virtualHosts' ∧
    makeListener m₁ virtualHosts cert key = makeListener m₂ virtualHosts' cert' key' ∧
    (∀ host host' timeout timeout', host = host' → timeout = timeout' →
      makeVirtualHost host timeout = makeVirtualHost host' timeout') ∧
    (∀ addresses addresses', addresses = addresses' →
      makeAddresses addresses = makeAddresses addresses') ∧
    (∀ host host' ca ca' healthPath healthPath' addresses addresses',
      host = host' → ca = ca' → healthPath = healthPath' → addresses = addresses' →
      makeCluster host ca healthPath addresses
        = makeCluster host' ca' healthPath' addresses') := by
  subst hvh hcert hkey
  have hmgr : makeConnectionManager m₁ virtualHosts
      = makeConnectionManager m₂ virtualHosts := by
    unfold makeConnectionManager
    rw [hlog]
  refine ⟨hmgr, ?_, ?_, ?_, ?_⟩
  · cases hret : makeConnectionManager m₁ virtualHosts with
    | error fatal =>
      rw [makeListener_of_mgr_error m₁ virtualHosts cert key fatal hret,
        makeListener_of_mgr_error m₂ virtualHosts cert key fatal (hmgr ▸ hret)]
    | ok mgr =>
      have hret' : makeConnectionManager m₂ virtualHosts = .ok mgr := hmgr ▸ hret
      have hsame := hcfg mgr hret
      cases hser : m₁ (.HttpConnectionManager mgr) with
      | error err =>
        rw [makeListener_of_cfg_error m₁ virtualHosts cert key mgr err hret hser,
          makeListener_of_cfg_error m₂ virtualHosts cert key mgr err hret'
            (hsame ▸ hser)]
      | ok httpConfig =>
        rw [makeListener_of_ok m₁ virtualHosts cert key mgr httpConfig hret hser,
          makeListener_of_ok m₂ virtualHosts cert key mgr httpConfig hret'
            (hsame ▸ hser)]
  · rintro host host' timeout timeout' rfl rfl
    rfl
  · rintro addresses addresses' rfl
    rfl
  · rintro host host' ca ca' healthPath healthPath' addresses addresses' rfl rfl rfl rfl
    rfl

/-- C13, at two serializers that differ on listeners and clusters only. -/
theorem builders_deterministic_witness :
    sampleMarshal (.FileAccessLog { Path := "/var/log/envoy/test.log" })
      = sampleMarshalAll (.FileAccessLog { Path := "/var/log/envoy/test.log" }) ∧
    (∀ mgr, makeConnectionManager sampleMarshal (Slice.ofList []) = .ok mgr →
      sampleMarshal (.HttpConnectionManager mgr)
        = sampleMarshalAll (.HttpConnectionManager mgr)) ∧
    makeConnectionManager sampleMarshal (Slice.ofList [])
      = makeConnectionManager sampleMarshalAll (Slice.ofList []) ∧
    makeListener sampleMarshal (Slice.ofList []) "cert.pem" "key.pem"
      = makeListener sampleMarshalAll (Slice.ofList []) "cert.pem" "key.pem" :=
  ⟨rfl, fun _ _ => rfl,
    (builders_deterministic sampleMarshal sampleMarshalAll (Slice.ofList [])
      (Slice.ofList []) "cert.pem" "cert.pem" "key.pem" "key.pem" rfl rfl rfl rfl
      (fun _ _ => rfl)).1,
    (builders_deterministic sampleMarshal sampleMarshalAll (Slice.ofList [])
      (Slice.ofList []) "cert.pem" "cert.pem" "key.pem" "key.pem" rfl rfl rfl rfl
      (fun _ _ => rfl)).2.1⟩

/-! ## Frame properties -/

/-- C14: `cert` and `key` reach the TLS context only. When both serializations
succeed, the listeners that `makeListener` returns for two pairs `(cert₁, key₁)` and
`(cert₂, key₂)` have the same name, the same bind address, one filter chain each, and
the same filter list (so the same filter name and filter config). -/
theorem makeListener_frame {σ : Type} (MessageToStruct : Marshal σ)
    (virtualHosts : Slice route.VirtualHost) (cert₁ key₁ cert₂ key₂ : String)
    (httpConnectionManager : hcm.HttpConnectionManager σ) (httpConfig : σ)
    (hmgr : makeConnectionManager MessageToStruct virtualHosts = .ok httpConnectionManager)
    (hcfg : MessageToStruct (.HttpConnectionManager httpConnectionManager)
      = .ok httpConfig) :
    ∃ l₁ l₂ fc₁ fc₂,
      makeListener MessageToStruct virtualHosts cert₁ key₁
        = .ok (Slice.ofList [.Listener l₁]) ∧
      makeListener MessageToStruct virtualHosts cert₂ key₂
        = .ok (Slice.ofList [.Listener l₂]) ∧
      l₁.Name = l₂.Name ∧
      l₁.Address = l₂.Address ∧
      l₁.FilterChains = Slice.ofList [fc₁] ∧
      l₂.FilterChains = Slice.ofList [fc₂] ∧
      l₁.FilterChains.len = l₂.FilterChains.len ∧
      fc₁.Filters = fc₂.Filters ∧
      ∀ tls, ({ fc₁ with TlsContext := tls } : listener.FilterChain σ)
        = { fc₂ with TlsContext := tls } :=
  ⟨_, _, _, _,
    makeListener_of_ok MessageToStruct virtualHosts cert₁ key₁ httpConnectionManager
      httpConfig hmgr hcfg,
    makeListener_of_ok MessageToStruct virtualHosts cert₂ key₂ httpConnectionManager
      httpConfig hmgr hcfg,
    rfl, rfl, rfl, rfl, rfl, rfl, fun _ => rfl⟩

/-- C14, at a TLS listener against a plaintext listener. -/
theorem makeListener_frame_witness :
    makeConnectionManager sampleMarshalAll (Slice.ofList [makeVirtualHost "a" 1])
      = .ok (sampleManager (Slice.ofList [makeVirtualHost "a" 1])) ∧
    sampleMarshalAll (.HttpConnectionManager
        (sampleManager (Slice.ofList [makeVirtualHost "a" 1])))
      = .ok "ingress_http" ∧
    ∃ l₁ l₂ fc₁ fc₂,
      makeListener sampleMarshalAll (Slice.ofList [makeVirtualHost "a" 1])
          "cert.pem" "key.pem"
        = .ok (Slice.ofList [.Listener l₁]) ∧
      makeListener sampleMarshalAll (Slice.ofList [makeVirtualHost "a" 1]) "" ""
        = .ok (Slice.ofList [.Listener l₂]) ∧
      l₁.Name = l₂.Name ∧
      l₁.Address = l₂.Address ∧
      l₁.FilterChains = Slice.ofList [fc₁] ∧
      l₂.FilterChains = Slice.ofList [fc₂] ∧
      l₁.FilterChains.len = l₂.FilterChains.len ∧
      fc₁.Filters = fc₂.Filters ∧
      ∀ tls, ({ fc₁ with TlsContext := tls } : listener.FilterChain String)
        = { fc₂ with TlsContext := tls } :=
  ⟨rfl, rfl,
    makeListener_frame sampleMarshalAll (Slice.ofList [makeVirtualHost "a" 1])
      "cert.pem" "key.pem" "" "" (sampleManager (Slice.ofList [makeVirtualHost "a" 1]))
      "ingress_http" rfl rfl⟩

/-- C15: `ca` reaches the TLS context only. The clusters of `makeCluster` for two
values `ca₁` and `ca₂` agree on type, name, connect timeout, hosts and health checks,
and on every field once the TLS context is overwritten; and when both values are
non-empty, the two TLS contexts are the same term up to the trusted-CA file name. -/
theorem makeCluster_frame (host ca₁ ca₂ healthPath : String)
    (addresses : Slice (Option core.Address)) :
    (makeCluster host ca₁ healthPath addresses).Type_
      = (makeCluster host ca₂ healthPath addresses).Type_ ∧
    (makeCluster host ca₁ healthPath addresses).Name
      = (makeCluster host ca₂ healthPath addresses).Name ∧
    (makeCluster host ca₁ healthPath addresses).ConnectTimeout
      = (makeCluster host ca₂ healthPath addresses).ConnectTimeout ∧
    (makeCluster host ca₁ healthPath addresses).Hosts
      = (makeCluster host ca₂ healthPath addresses).Hosts ∧
    (makeCluster host ca₁ healthPath addresses).HealthChecks
      = (makeCluster host ca₂ healthPath addresses).HealthChecks ∧
    (∀ tls, { makeCluster host ca₁ healthPath addresses with TlsContext := tls }
      = { makeCluster host ca₂ healthPath addresses with TlsContext := tls }) ∧
    (ca₁ ≠ "" → ca₂ ≠ "" →
      (makeCluster host ca₁ healthPath addresses).TlsContext = some
        { CommonTlsContext := some
            { TlsCertificates := Slice.nil
              ValidationContextType := some (.CommonTlsContext_ValidationContext (some
                { TrustedCa := some
                    { Specifier := some (.DataSource_Filename ca₁) } })) } } ∧
      (makeCluster host ca₂ healthPath addresses).TlsContext = some
        { CommonTlsContext := some
            { TlsCertificates := Slice.nil
              ValidationContextType := some (.CommonTlsContext_ValidationContext (some
                { TrustedCa := some
                    { Specifier := some (.DataSource_Filename ca₂) } })) } }) := by
  refine ⟨rfl, rfl, rfl, rfl, rfl, fun _ => rfl, ?_⟩
  intro h₁ h₂
  constructor <;> simp [makeCluster, h₁, h₂]

/-! ## Addresses: concatenation -/

/-- C16: `makeAddresses` distributes over concatenation. For an input whose elements
are those of `a` followed by those of `b`, the result is the elements of
`makeAddresses a` followed by those of `makeAddresses b`; lengths add; an output
element depends only on the input string at its position; and a repeated input string
gives repeated addresses. -/
theorem makeAddresses_append (a b : Slice String) :
    (∀ c : Slice String, c.toList = a.toList ++ b.toList →
      makeAddresses c
        = Slice.ofList ((makeAddresses a).toList ++ (makeAddresses b).toList)) ∧
    (makeAddresses (Slice.ofList (a.toList ++ b.toList))).len
      = (makeAddresses a).len + (makeAddresses b).len ∧
    (∀ i : Nat, a.toList[i]? = b.toList[i]? →
      (makeAddresses a).toList[i]? = (makeAddresses b).toList[i]?) ∧
    (∀ x : String, makeAddresses (Slice.ofList [x, x]) = Slice.ofList
      [some
        { Address := some (.Address_SocketAddress (some
            { Address := x
              PortSpecifier := some (.SocketAddress_PortValue 443) })) },
       some
        { Address := some (.Address_SocketAddress (some
            { Address := x
              PortSpecifier := some (.SocketAddress_PortValue 443) })) }]) := by
  refine ⟨?_, ?_, ?_, fun x => rfl⟩
  · intro c hc
    rw [makeAddresses_eq_map c, makeAddresses_eq_map a, makeAddresses_eq_map b, hc]
    simp [Slice.toList]
  · rw [makeAddresses_eq_map, makeAddresses_eq_map a, makeAddresses_eq_map b]
    simp [Slice.len, Slice.toList]
  · intro i hi
    rw [makeAddresses_eq_map a, makeAddresses_eq_map b]
    show (List.map _ a.toList)[i]? = (List.map _ b.toList)[i]?
    rw [List.getElem?_map, List.getElem?_map, hi]

end envoy
